import Mathlib

/-!
Shallow embedding of the chapter-thumbnail engine of vue-vimeo-player's
test application.  The embedded code lives in
`src/test-app/src/utils/videoThumbnails.js` (frame capture, batch thumbnail
generation, equal-chapter synthesis) and in the test application's root
component `src/unnamed/part_000` (playback-position tracking and
chapter navigation).  Times and durations are modelled as rationals,
media-element state as explicit records, and the event-driven capture
code as step functions over an explicit session state driven by a list
of environment events.
-/

namespace VueVimeoPlayer

/-- A chapter definition `{ title, startTime }` as produced by
`generateEqualChapters` and consumed by the batch generators
(videoThumbnails.js lines 291-442). -/
structure ChapterDef where
  title : String
  startTime : ℚ
  deriving DecidableEq, Repr

/-- A chapter record after batch thumbnail generation: the chapter
definition plus `thumbnailUrl`, which is `none` when the capture for
that chapter failed (the JS code stores `null`). -/
structure Chapter where
  title : String
  startTime : ℚ
  thumbnailUrl : Option String
  deriving DecidableEq, Repr

/-- `generateEqualChapters(duration, numChapters, baseTitle)`
(videoThumbnails.js lines 430-442): splits `duration` into
`numChapters` equal segments; chapter `i` (0-based) starts at
`i * (duration / numChapters)` and is titled `baseTitle ++ " " ++ (i+1)`.
The JS default `baseTitle = 'Chapter'` is passed explicitly here. -/
def generateEqualChapters (duration : ℚ) (numChapters : Nat) (baseTitle : String) :
    List ChapterDef :=
  let segmentDuration := duration / numChapters
  (List.range numChapters).map (fun i =>
    { title := baseTitle ++ " " ++ toString (i + 1 : Nat), startTime := i * segmentDuration })

/-- The predicate tested at index `idx` by the `findIndex` callback in
`onVideoTimeUpdate` (part_000 lines 231-237): the current time is at or
past this chapter's start and, when a next chapter exists, strictly
before the next chapter's start. -/
def chapterPred (chapters : List Chapter) (t : ℚ) (idx : Nat) : Bool :=
  match chapters[idx]? with
  | none => false
  | some chapter =>
    match chapters[idx + 1]? with
    | none => decide (chapter.startTime ≤ t)
    | some nextChapter => decide (chapter.startTime ≤ t) && decide (t < nextChapter.startTime)

/-- The `chapters.value.findIndex(...)` computation in `onVideoTimeUpdate`
(part_000 lines 231-237): the first index whose predicate holds, or `-1`
when none does (JS `findIndex` semantics). -/
def trackerIndexFor (chapters : List Chapter) (t : ℚ) : Int :=
  match (List.range chapters.length).find? (chapterPred chapters t) with
  | some idx => (idx : Int)
  | none => -1

/-- `onVideoTimeUpdate` (part_000 lines 227-242) as a function from the
stored `currentChapterIndex` to its new value: the stored index is
overwritten with the computed index only when the computed index is not
`-1` and differs from the stored one. -/
def onVideoTimeUpdate (chapters : List Chapter) (t : ℚ) (cur : Int) : Int :=
  let index := trackerIndexFor chapters t
  if index ≠ -1 ∧ cur ≠ index then index else cur

/-- The start time stored at index `i`, or `0` past the end (used only to
state index-wise properties; in-range accesses agree with `List.get`). -/
def startAt (chapters : List Chapter) (i : Nat) : ℚ :=
  match chapters[i]? with
  | some c => c.startTime
  | none => 0

/-- The chapter list is ordered by `startTime` ascending — the ordering
the spec requires the caller to supply (spec section 3). -/
def SortedByStart (chapters : List Chapter) : Prop :=
  chapters.Pairwise (fun a b => a.startTime ≤ b.startTime)

instance (chapters : List Chapter) : Decidable (SortedByStart chapters) := by
  unfold SortedByStart; infer_instance

/-- The seek-time computation of `captureVideoFrameFromElement`
(videoThumbnails.js lines 41-46): clamp `timeSeconds` to
`[0, duration - 0.1]` via `Math.min/Math.max`, then nudge an exact `0`
to `0.1` when `duration > 0.1`.  The same formula is re-applied inside
`onLoadedMetadata` (lines 114-116) with the thumbnail element's own
duration.  `duration` is the JS `videoElement.duration || 0`. -/
def computeSeekTime (timeSeconds duration : ℚ) : ℚ :=
  let seekTime := min (max 0 timeSeconds) (duration - 1/10)
  if seekTime = 0 ∧ duration > 1/10 then 1/10 else seekTime

/-- The seek-time computation used by `captureVideoFrame`'s
`onLoadedMetadata`/`onCanPlay` handlers (videoThumbnails.js lines
207-208 and 214-215): the same clamp, with no zero nudge. -/
def urlSeekTime (timeSeconds duration : ℚ) : ℚ :=
  min (max 0 timeSeconds) (duration - 1/10)

/-! Helper lemmas about the playback-position tracker. -/

lemma startAt_eq (chapters : List Chapter) (i : Nat) (h : i < chapters.length) :
    startAt chapters i = chapters[i].startTime := by
  simp [startAt, List.getElem?_eq_getElem h]

lemma chapterPred_iff (chapters : List Chapter) (t : ℚ) (i : Nat) (h : i < chapters.length) :
    chapterPred chapters t i = true ↔
      startAt chapters i ≤ t ∧ (i + 1 < chapters.length → t < startAt chapters (i + 1)) := by
  unfold chapterPred
  rw [List.getElem?_eq_getElem h]
  by_cases h2 : i + 1 < chapters.length
  · rw [List.getElem?_eq_getElem h2]
    simp [startAt_eq chapters i h, startAt_eq chapters (i + 1) h2, h2]
  · rw [List.getElem?_eq_none (by omega)]
    simp [startAt_eq chapters i h, h2]

lemma startAt_mono (chapters : List Chapter) (hs : SortedByStart chapters)
    (i j : Nat) (hij : i ≤ j) (hj : j < chapters.length) :
    startAt chapters i ≤ startAt chapters j := by
  rcases Nat.lt_or_ge i j with hlt | hge
  · have hi : i < chapters.length := lt_trans hlt hj
    rw [startAt_eq chapters i hi, startAt_eq chapters j hj]
    exact List.pairwise_iff_get.mp hs ⟨i, hi⟩ ⟨j, hj⟩ (Fin.mk_lt_mk.mpr hlt)
  · have heq : i = j := le_antisymm hij hge
    rw [heq]

lemma trackerIndexFor_some (chapters : List Chapter) (t : ℚ) (k : Nat)
    (h : trackerIndexFor chapters t = (k : Int)) :
    k < chapters.length ∧ chapterPred chapters t k = true := by
  unfold trackerIndexFor at h
  rcases heq : (List.range chapters.length).find? (chapterPred chapters t) with _ | idx
  · simp only [heq] at h
    omega
  · simp only [heq] at h
    have hik : idx = k := by exact_mod_cast h
    subst hik
    exact ⟨List.mem_range.mp (List.mem_of_find?_eq_some heq), List.find?_some heq⟩

lemma trackerIndexFor_none (chapters : List Chapter) (t : ℚ)
    (h : trackerIndexFor chapters t = -1) :
    ∀ i, i < chapters.length → chapterPred chapters t i = false := by
  intro i hi
  unfold trackerIndexFor at h
  rcases heq : (List.range chapters.length).find? (chapterPred chapters t) with _ | idx
  · have := List.find?_eq_none.mp heq i (List.mem_range.mpr hi)
    simpa using this
  · simp only [heq] at h
    omega

lemma exists_pred_of_exists_le (chapters : List Chapter) (t : ℚ)
    (k : Nat) (hk : k < chapters.length)
    (hle : startAt chapters k ≤ t) :
    ∃ m, m < chapters.length ∧ chapterPred chapters t m = true := by
  have hne : ((Finset.range chapters.length).filter
      (fun i => startAt chapters i ≤ t)).Nonempty :=
    ⟨k, Finset.mem_filter.mpr ⟨Finset.mem_range.mpr hk, hle⟩⟩
  set m := ((Finset.range chapters.length).filter
      (fun i => startAt chapters i ≤ t)).max' hne with hm
  have hmS := Finset.max'_mem _ hne
  rw [← hm] at hmS
  have hm1 : m < chapters.length := Finset.mem_range.mp (Finset.mem_filter.mp hmS).1
  have hm2 : startAt chapters m ≤ t := (Finset.mem_filter.mp hmS).2
  refine ⟨m, hm1, (chapterPred_iff chapters t m hm1).mpr ⟨hm2, ?_⟩⟩
  intro hnext
  by_contra hcon
  push_neg at hcon
  have hmem : m + 1 ∈ (Finset.range chapters.length).filter
      (fun i => startAt chapters i ≤ t) :=
    Finset.mem_filter.mpr ⟨Finset.mem_range.mpr hnext, hcon⟩
  have := Finset.le_max' _ (m + 1) hmem
  omega

lemma onVideoTimeUpdate_eq_ite (chapters : List Chapter) (t : ℚ) (cur : Int) :
    onVideoTimeUpdate chapters t cur =
      if trackerIndexFor chapters t = -1 then cur else trackerIndexFor chapters t := by
  unfold onVideoTimeUpdate
  by_cases h1 : trackerIndexFor chapters t = -1 <;>
    by_cases h2 : cur = trackerIndexFor chapters t <;>
    simp [h1, h2]

/-- C3: for every `duration > 0`, `count ≥ 1` and title prefix,
`generateEqualChapters duration count prefix` returns exactly `count`
chapter definitions; entry `i` (0-based) has
`startTime = i * (duration / count)` and `title = "{prefix} {i+1}"`;
the first start time is `0` and the start times are strictly
increasing. -/
theorem generateEqualChapters_spec (duration : ℚ) (count : Nat) (baseTitle : String)
    (hd : 0 < duration) (hc : 1 ≤ count) :
    (generateEqualChapters duration count baseTitle).length = count ∧
    (∀ i, i < count →
      (generateEqualChapters duration count baseTitle)[i]? =
        some { title := baseTitle ++ " " ++ toString (i + 1 : Nat),
               startTime := i * (duration / count) }) ∧
    (generateEqualChapters duration count baseTitle)[0]? =
      some { title := baseTitle ++ " " ++ toString (1 : Nat), startTime := 0 } ∧
    ((generateEqualChapters duration count baseTitle).map
        (fun c => c.startTime)).Pairwise (· < ·) := by
  have hlen : (generateEqualChapters duration count baseTitle).length = count := by
    simp [generateEqualChapters]
  have hget : ∀ i, i < count →
      (generateEqualChapters duration count baseTitle)[i]? =
        some { title := baseTitle ++ " " ++ toString (i + 1 : Nat),
               startTime := i * (duration / count) } := by
    intro i hi
    simp [generateEqualChapters, List.getElem?_range hi]
  refine ⟨hlen, hget, ?_, ?_⟩
  · have h0 := hget 0 (by omega)
    simpa using h0
  · have hmap : (generateEqualChapters duration count baseTitle).map
        (fun c => c.startTime) =
        (List.range count).map (fun i : Nat => (i : ℚ) * (duration / count)) := by
      simp only [generateEqualChapters, List.map_map]
      rfl
    rw [hmap, List.pairwise_map]
    have hpos : 0 < duration / count := by
      apply div_pos hd
      exact_mod_cast Nat.lt_of_lt_of_le Nat.zero_lt_one hc
    refine (List.pairwise_lt_range count).imp ?_
    intro a b hab
    have hcast : (a : ℚ) < (b : ℚ) := by exact_mod_cast hab
    exact mul_lt_mul_of_pos_right hcast hpos

/-- C3 witness: the theorem applied at `duration = 100`, `count = 5`,
prefix `"Chapter"`: five chapters, the third starting at `2 * (100/5)`. -/
theorem generateEqualChapters_spec_witness :
    (generateEqualChapters 100 5 "Chapter").length = 5 ∧
    (generateEqualChapters 100 5 "Chapter")[2]? =
      some { title := "Chapter" ++ " " ++ toString (3 : Nat),
             startTime := (2 : Nat) * ((100 : ℚ) / (5 : Nat)) } := by
  have h := generateEqualChapters_spec 100 5 "Chapter" (by norm_num) (by norm_num)
  exact ⟨h.1, h.2.1 2 (by norm_num)⟩

/-- C2 counterexample: with the single chapter starting at `5` and
playback time `3`, no chapter qualifies (the computed `findIndex` is
`-1`), yet a stored `currentChapterIndex` of `0` is left at `0` rather
than being set to `-1`: the handler only writes when the computed index
is not `-1`. -/
theorem onVideoTimeUpdate_no_reset_counterexample :
    trackerIndexFor [{ title := "A", startTime := 5, thumbnailUrl := none }] 3 = -1 ∧
    onVideoTimeUpdate [{ title := "A", startTime := 5, thumbnailUrl := none }] 3 0 = 0 ∧
    (0 : Int) ≠ -1 := by
  refine ⟨by decide, by decide, by decide⟩

/-- C2 (amended): for chapters ordered by `startTime` ascending, the
computed index is the greatest `i` with `chapters[i].startTime ≤ t`
(every later chapter starts strictly after `t`), and the stored index is
overwritten with it when it differs; when no chapter qualifies the
computed index is `-1` and the stored index is left unchanged (not set
to `-1`); the update is idempotent and the stored index changes only to
the freshly computed value. -/
theorem onVideoTimeUpdate_greatest (chapters : List Chapter) (t : ℚ) (cur : Int)
    (hs : SortedByStart chapters) :
    (trackerIndexFor chapters t = -1 →
        onVideoTimeUpdate chapters t cur = cur ∧ ∀ c ∈ chapters, t < c.startTime) ∧
    (∀ k : Nat, trackerIndexFor chapters t = (k : Int) →
        onVideoTimeUpdate chapters t cur = (k : Int) ∧
        k < chapters.length ∧ startAt chapters k ≤ t ∧
        ∀ j : Nat, k < j → j < chapters.length → t < startAt chapters j) ∧
    onVideoTimeUpdate chapters t (onVideoTimeUpdate chapters t cur) =
      onVideoTimeUpdate chapters t cur ∧
    (onVideoTimeUpdate chapters t cur ≠ cur →
        onVideoTimeUpdate chapters t cur = trackerIndexFor chapters t) := by
  refine ⟨?_, ?_, ?_, ?_⟩
  · intro hnone
    refine ⟨by simp [onVideoTimeUpdate_eq_ite, hnone], ?_⟩
    intro c hc
    obtain ⟨⟨k, hk⟩, rfl⟩ := List.mem_iff_get.mp hc
    by_contra hcon
    push_neg at hcon
    have hle : startAt chapters k ≤ t := by
      rw [startAt_eq chapters k hk]
      simpa using hcon
    obtain ⟨m, hm, hpred⟩ := exists_pred_of_exists_le chapters t k hk hle
    have := trackerIndexFor_none chapters t hnone m hm
    simp [hpred] at this
  · intro k hk
    obtain ⟨hklen, hpred⟩ := trackerIndexFor_some chapters t k hk
    obtain ⟨hle, hnext⟩ := (chapterPred_iff chapters t k hklen).mp hpred
    have hne : trackerIndexFor chapters t ≠ -1 := by
      rw [hk]; omega
    refine ⟨by simp [onVideoTimeUpdate_eq_ite, hne, hk], hklen, hle, ?_⟩
    intro j hkj hjlen
    have hsucc : k + 1 < chapters.length := by omega
    have h1 : t < startAt chapters (k + 1) := hnext hsucc
    have h2 : startAt chapters (k + 1) ≤ startAt chapters j :=
      startAt_mono chapters hs (k + 1) j (by omega) hjlen
    exact lt_of_lt_of_le h1 h2
  · by_cases hnone : trackerIndexFor chapters t = -1
    · simp [onVideoTimeUpdate_eq_ite, hnone]
    · simp [onVideoTimeUpdate_eq_ite, hnone]
  · intro hchanged
    rw [onVideoTimeUpdate_eq_ite] at hchanged ⊢
    by_cases hnone : trackerIndexFor chapters t = -1
    · simp [hnone] at hchanged
    · simp [hnone]

/-- C2 witness: the amended theorem applied to five equal chapters
starting at `0, 20, 40, 60, 80`, time `45`, stored index `0`: the
tracker computes index `2` and stores it. -/
theorem onVideoTimeUpdate_greatest_witness :
    onVideoTimeUpdate
      [⟨"C1", 0, none⟩, ⟨"C2", 20, none⟩, ⟨"C3", 40, none⟩,
       ⟨"C4", 60, none⟩, ⟨"C5", 80, none⟩] 45 0 = (2 : Int) ∧
    startAt
      [⟨"C1", 0, none⟩, ⟨"C2", 20, none⟩, ⟨"C3", 40, none⟩,
       ⟨"C4", 60, none⟩, ⟨"C5", 80, none⟩] 2 ≤ 45 := by
  have h := onVideoTimeUpdate_greatest
    [⟨"C1", 0, none⟩, ⟨"C2", 20, none⟩, ⟨"C3", 40, none⟩,
     ⟨"C4", 60, none⟩, ⟨"C5", 80, none⟩] 45 0 (by decide)
  have h2 := h.2.1 2 (by decide)
  exact ⟨h2.1, h2.2.2.1⟩

/-! Batch thumbnail generation (videoThumbnails.js lines 299-391).
Per-chapter capture outcomes are an oracle `outcome : Nat → Option String`
(the result of the `i`-th awaited capture call: `some url` when it
resolves, `none` when it rejects with any error); the `try/catch` around
each capture turns a rejection into `thumbnailUrl: null` and continues. -/

/-- The shared playback state of the caller's video element that
`generateChapterThumbnailsFromElement` reads and writes. -/
structure VideoState where
  currentTime : ℚ
  paused : Bool
  deriving DecidableEq, Repr

/-- The `for` loop shared by `generateChapterThumbnails` (lines 365-388)
and `generateChapterThumbnailsFromElement` (lines 319-343): one record
is pushed per chapter definition, with `thumbnailUrl := outcome i` —
`none` exactly when the `i`-th capture failed. -/
def thumbBatchLoop (outcome : Nat → Option String) : Nat → List ChapterDef → List Chapter
  | _, [] => []
  | i, chapter :: rest =>
    { title := chapter.title, startTime := chapter.startTime, thumbnailUrl := outcome i }
      :: thumbBatchLoop outcome (i + 1) rest

/-- `generateChapterThumbnails(videoUrl, chapters, ...)` (lines 362-391):
the batch loop alone; it touches no caller-owned element. -/
def generateChapterThumbnails (outcome : Nat → Option String)
    (chapters : List ChapterDef) : List Chapter :=
  thumbBatchLoop outcome 0 chapters

/-- Lines 303-306: `wasPlaying = !videoElement.paused`; if it was
playing, `videoElement.pause()` before the first capture. -/
def pausedForCapture (v : VideoState) : VideoState :=
  if !v.paused then { v with paused := true } else v

/-- `generateChapterThumbnailsFromElement(videoElement, chapters, ...)`
(lines 299-352): pause if playing, run the batch loop (captures happen on
a separate internal element and do not touch `videoElement`), then
restore: `videoElement.currentTime = 0` and `play()` when it had been
playing.  Returns the chapter records and the element's final state. -/
def generateChapterThumbnailsFromElement (outcome : Nat → Option String)
    (chapters : List ChapterDef) (v : VideoState) : List Chapter × VideoState :=
  let wasPlaying := !v.paused
  let v1 := pausedForCapture v
  let result := thumbBatchLoop outcome 0 chapters
  let v2 := { v1 with currentTime := 0 }
  let v3 := if wasPlaying then { v2 with paused := false } else v2
  (result, v3)

lemma thumbBatchLoop_length (outcome : Nat → Option String) (j : Nat)
    (chapters : List ChapterDef) :
    (thumbBatchLoop outcome j chapters).length = chapters.length := by
  induction chapters generalizing j with
  | nil => rfl
  | cons c rest ih => simp [thumbBatchLoop, ih]

lemma thumbBatchLoop_getElem (outcome : Nat → Option String) (j : Nat)
    (chapters : List ChapterDef) (i : Nat) :
    (thumbBatchLoop outcome j chapters)[i]? =
      (chapters[i]?).map (fun c =>
        { title := c.title, startTime := c.startTime, thumbnailUrl := outcome (j + i) }) := by
  induction chapters generalizing j i with
  | nil => simp [thumbBatchLoop]
  | cons c rest ih =>
    cases i with
    | zero => simp [thumbBatchLoop]
    | succ i2 =>
      simp only [thumbBatchLoop, List.getElem?_cons_succ]
      rw [ih]
      have : j + 1 + i2 = j + (i2 + 1) := by omega
      rw [this]

/-- C1: for every capture-outcome pattern, both batch generators return
exactly one record per chapter definition, in the same order, carrying
the definition's title and start time; a failed capture yields
`thumbnailUrl = none` for that chapter only.  Both generators are total
functions of the outcomes: no capture failure escapes the batch. -/
theorem batch_yields_record_per_chapter (outcome : Nat → Option String)
    (chapters : List ChapterDef) (v : VideoState) (i : Nat) :
    (generateChapterThumbnails outcome chapters).length = chapters.length ∧
    ((generateChapterThumbnailsFromElement outcome chapters v).1).length = chapters.length ∧
    (generateChapterThumbnails outcome chapters)[i]? =
      (chapters[i]?).map (fun c =>
        { title := c.title, startTime := c.startTime, thumbnailUrl := outcome i }) ∧
    ((generateChapterThumbnailsFromElement outcome chapters v).1)[i]? =
      (chapters[i]?).map (fun c =>
        { title := c.title, startTime := c.startTime, thumbnailUrl := outcome i }) := by
  refine ⟨thumbBatchLoop_length outcome 0 chapters, thumbBatchLoop_length outcome 0 chapters, ?_, ?_⟩
  · have h := thumbBatchLoop_getElem outcome 0 chapters i
    simpa [generateChapterThumbnails] using h
  · have h := thumbBatchLoop_getElem outcome 0 chapters i
    simpa [generateChapterThumbnailsFromElement] using h

/-- C5: after `generateChapterThumbnailsFromElement` completes, the
element's position is `0` and its paused flag equals its value before
the call; moreover the state in which the captures run is always
paused (a playing element is paused before the first capture). -/
theorem batch_restores_playback_state (outcome : Nat → Option String)
    (chapters : List ChapterDef) (v : VideoState) :
    ((generateChapterThumbnailsFromElement outcome chapters v).2).currentTime = 0 ∧
    ((generateChapterThumbnailsFromElement outcome chapters v).2).paused = v.paused ∧
    (pausedForCapture v).paused = true := by
  cases hp : v.paused <;>
    simp [generateChapterThumbnailsFromElement, pausedForCapture, hp]

/-! Chapter navigation: the HTML5 branch of `goToChapter`
(part_000 lines 301-354), modelled as the trace of requests it issues.
`seekThrows` models the outer `try` catching a throwing seek;
`play1Ok` / `play2Ok` are whether the first play request and the retry
resolve. -/

/-- One outward request or log emitted by `goToChapter`. -/
inductive NavAct where
  | seekReq (t : ℚ)
  | playReq
  | warnAutoplay
  | warnPlayFailed
  | logSeekError
  deriving DecidableEq, Repr

/-- The HTML5-video branch of `goToChapter(chapter)` (part_000 lines
301-354): set `currentTime`, await `seeked` (with a 500ms fallback that
always lets it proceed), request `play()`; on rejection warn and retry
`play()` exactly once, its own rejection only logging a warning; then
look up the chapter's index by `startTime` and store it when found.
The outer `try/catch` turns any seek failure into a log entry.
Returns the request trace, the new stored index, and whether an
exception escaped (always `false`). -/
def goToChapterVideo (chapter : Chapter) (chapters : List Chapter) (cur : Int)
    (seekThrows play1Ok play2Ok : Bool) : List NavAct × Int × Bool :=
  if seekThrows then
    ([NavAct.seekReq chapter.startTime, NavAct.logSeekError], cur, false)
  else
    let playActs :=
      if play1Ok then [NavAct.playReq]
      else
        [NavAct.playReq, NavAct.warnAutoplay, NavAct.playReq] ++
          (if play2Ok then [] else [NavAct.warnPlayFailed])
    let index :=
      match chapters.findIdx? (fun ch => ch.startTime = chapter.startTime) with
      | some idx => (idx : Int)
      | none => -1
    let newCur := if index ≠ -1 then index else cur
    (NavAct.seekReq chapter.startTime :: playActs, newCur, false)

/-- C8: chapter navigation never lets a seek or play failure escape; it
always requests the seek first; when the seek proceeds it requests play
once on success, and on a rejected play it warns and retries exactly
once (two play requests in total), the retry's own rejection only
logging; a throwing seek is only logged and issues no play request. -/
theorem goToChapter_play_retry (chapter : Chapter) (chapters : List Chapter) (cur : Int)
    (seekThrows play1Ok play2Ok : Bool) :
    (goToChapterVideo chapter chapters cur seekThrows play1Ok play2Ok).2.2 = false ∧
    ((goToChapterVideo chapter chapters cur seekThrows play1Ok play2Ok).1).head? =
      some (NavAct.seekReq chapter.startTime) ∧
    (seekThrows = false → play1Ok = true →
      (goToChapterVideo chapter chapters cur seekThrows play1Ok play2Ok).1 =
        [NavAct.seekReq chapter.startTime, NavAct.playReq]) ∧
    (seekThrows = false → play1Ok = false → play2Ok = true →
      (goToChapterVideo chapter chapters cur seekThrows play1Ok play2Ok).1 =
        [NavAct.seekReq chapter.startTime, NavAct.playReq,
         NavAct.warnAutoplay, NavAct.playReq]) ∧
    (seekThrows = false → play1Ok = false → play2Ok = false →
      (goToChapterVideo chapter chapters cur seekThrows play1Ok play2Ok).1 =
        [NavAct.seekReq chapter.startTime, NavAct.playReq,
         NavAct.warnAutoplay, NavAct.playReq, NavAct.warnPlayFailed]) ∧
    (seekThrows = true →
      (goToChapterVideo chapter chapters cur seekThrows play1Ok play2Ok).1 =
        [NavAct.seekReq chapter.startTime, NavAct.logSeekError]) := by
  cases seekThrows <;> cases play1Ok <;> cases play2Ok <;>
    simp [goToChapterVideo]

/-- C8 witness: the theorem applied to a concrete chapter with a
rejected first play and a successful retry: nothing escapes and the
trace is seek, play, warn, play — exactly one retry. -/
theorem goToChapter_play_retry_witness :
    (goToChapterVideo ⟨"Chapter 3", 40, none⟩ [] 0 false false true).2.2 = false ∧
    (goToChapterVideo ⟨"Chapter 3", 40, none⟩ [] 0 false false true).1 =
      [NavAct.seekReq 40, NavAct.playReq, NavAct.warnAutoplay, NavAct.playReq] := by
  have h := goToChapter_play_retry ⟨"Chapter 3", 40, none⟩ [] 0 false false true
  exact ⟨h.1, h.2.2.2.1 rfl rfl rfl⟩

/-! Single-frame capture (videoThumbnails.js lines 13-279), embedded as
event-driven state machines.  The synchronous body of each Promise
executor is the initial state; the decoder's notifications and the
timers are environment events folded over a step function that is the
translation of the corresponding handler.  An event whose handler
branches on decoder readiness or on `drawImage` succeeding carries that
environment choice. -/

/-- Failure kinds of a frame capture (decoder load error, readyState
still below 2 at the retry, `drawImage`/`toDataURL` throwing, and the
overall timeout). -/
inductive CapErr where
  | loadFailed
  | notReady
  | drawFailed
  | timedOut
  deriving DecidableEq, Repr

/-- JS `a || b` on strings (the empty string is falsy) — line 21,
`videoElement.src || videoElement.currentSrc`. -/
def jsOrStr (a b : String) : String := if a = "" then b else a

/-- The caller-supplied video element as read by
`captureVideoFrameFromElement`: it is only read (src, currentSrc,
duration); `listeners` counts listeners registered on it. -/
structure SuppliedElem where
  src : String
  currentSrc : String
  duration : Option ℚ
  currentTime : ℚ
  paused : Bool
  listeners : Nat
  deriving DecidableEq, Repr

/-- The internal video element created by `document.createElement('video')`
(line 25 / line 183): the element all seeking and decoding happens on.
`duration = none` models `NaN` before metadata. -/
structure ThumbState where
  src : String
  duration : Option ℚ
  readyState : Nat
  currentTime : ℚ
  deriving DecidableEq, Repr

/-- The state of one `captureVideoFrameFromElement` invocation:
the borrowed caller element, the fresh internal element, the outer
`seekTime` variable, the `resolved` flag, how many times `cleanup` ran,
whether the 10s timeout is still armed, whether the four listeners on
the internal element are still registered, and the settled result. -/
structure CapSession where
  supplied : SuppliedElem
  thumb : ThumbState
  seekTime : ℚ
  resolved : Bool
  cleanups : Nat
  timerArmed : Bool
  listenersActive : Bool
  outcome : Option (Except CapErr String)
  deriving Repr

/-- The synchronous executor body of `captureVideoFrameFromElement`
(lines 14-168): read the URL off the supplied element, create the fresh
element, compute `seekTime` from `videoElement.duration || 0`
(lines 41-46), arm the timeout, register the four listeners, and set
`thumbVideo.src`. -/
def initCapture (v : SuppliedElem) (timeSeconds : ℚ) : CapSession :=
  { supplied := v
    thumb := { src := jsOrStr v.src v.currentSrc, duration := none,
               readyState := 0, currentTime := 0 }
    seekTime := computeSeekTime timeSeconds (v.duration.getD 0)
    resolved := false
    cleanups := 0
    timerArmed := true
    listenersActive := true
    outcome := none }

/-- `cleanup` (lines 51-59): clear the timeout, remove the four
listeners, reset `thumbVideo.src` and reload. -/
def cleanupFromElem (s : CapSession) : CapSession :=
  { s with timerArmed := false
           listenersActive := false
           thumb := { s.thumb with src := "" }
           cleanups := s.cleanups + 1 }

/-- Every settling path: set `resolved`, run `cleanup`, then settle. -/
def finishFromElem (s : CapSession) (r : Except CapErr String) : CapSession :=
  let s1 := cleanupFromElem { s with resolved := true }
  { s1 with outcome := some r }

/-- Environment events delivered to a `captureVideoFrameFromElement`
invocation.  `metaLoaded d rs` is `loadedmetadata` (the decoder now
reports duration `d` and, after the 100ms delay, readyState `rs`);
`canPlay` is the `canplay` fallback; the three `seeked*` events are the
`seeked` notification followed by `captureFrame` finding the decoder
ready (drawing with outcome `drawOk`), ready only at the 200ms retry,
or still not ready at the retry; `errored` is the decoder's `error`
event; `timeout` is the 10s timer firing. -/
inductive CapEv where
  | metaLoaded (d : ℚ) (rs : Nat)
  | canPlay
  | seekedReady (drawOk : Bool) (url : String)
  | seekedLateReady (drawOk : Bool) (url : String)
  | seekedStillNotReady
  | errored
  | timeout
  deriving DecidableEq, Repr

/-- One handler activation of `captureVideoFrameFromElement`:
`onLoadedMetadata` (lines 109-120) re-clamps `seekTime` against the
internal element's duration and seeks it when `readyState ≥ 1`;
`onCanPlay` (lines 123-129) seeks it when it is still at 0 and a
positive seek was requested; `onSeeked`/`captureFrame` (lines 61-140)
resolve with the rendered frame or reject on a draw error or
not-ready retry; `onError` (lines 142-149) and the timeout
(lines 152-158) reject.  Every settling handler is guarded by
`resolved` and runs `cleanup` exactly once via `finishFromElem`. -/
def stepFromElem (s : CapSession) (e : CapEv) : CapSession :=
  match e with
  | .metaLoaded d rs =>
    if s.resolved then s
    else
      let s1 := { s with thumb := { s.thumb with duration := some d, readyState := rs } }
      if 1 ≤ rs then
        { s1 with thumb := { s1.thumb with currentTime := computeSeekTime s.seekTime d } }
      else s1
  | .canPlay =>
    if s.resolved then s
    else if s.thumb.currentTime = 0 ∧ 0 < s.seekTime then
      { s with thumb := { s.thumb with
          currentTime := computeSeekTime s.seekTime (s.thumb.duration.getD 0) } }
    else s
  | .seekedReady drawOk url =>
    if s.resolved then s
    else if drawOk then finishFromElem s (Except.ok url)
    else finishFromElem s (Except.error CapErr.drawFailed)
  | .seekedLateReady drawOk url =>
    if s.resolved then s
    else if drawOk then finishFromElem s (Except.ok url)
    else finishFromElem s (Except.error CapErr.drawFailed)
  | .seekedStillNotReady =>
    if s.resolved then s else finishFromElem s (Except.error CapErr.notReady)
  | .errored =>
    if s.resolved then s else finishFromElem s (Except.error CapErr.loadFailed)
  | .timeout =>
    if s.resolved then { s with timerArmed := false }
    else finishFromElem s (Except.error CapErr.timedOut)

/-- A whole `captureVideoFrameFromElement` invocation: the executor body
followed by any sequence of environment events. -/
def runFromElem (v : SuppliedElem) (timeSeconds : ℚ) (evs : List CapEv) : CapSession :=
  evs.foldl stepFromElem (initCapture v timeSeconds)

/-- The state of one `captureVideoFrame(videoUrl, ...)` invocation
(lines 181-279): like `CapSession` but with no borrowed element, and a
`cleanup` that does not clear the 15s timeout. -/
structure UrlSession where
  video : ThumbState
  seconds : ℚ
  resolved : Bool
  cleanups : Nat
  timerArmed : Bool
  listenersActive : Bool
  outcome : Option (Except CapErr String)
  deriving Repr

/-- The synchronous executor body of `captureVideoFrame`
(lines 182-277). -/
def initUrl (videoUrl : String) (timeSeconds : ℚ) : UrlSession :=
  { video := { src := videoUrl, duration := none, readyState := 0, currentTime := 0 }
    seconds := timeSeconds
    resolved := false
    cleanups := 0
    timerArmed := true
    listenersActive := true
    outcome := none }

/-- `cleanup` of `captureVideoFrame` (lines 196-203): reset `src`,
reload, remove the four listeners — it never calls `clearTimeout`,
so `timerArmed` is left as it was. -/
def cleanupUrl (s : UrlSession) : UrlSession :=
  { s with video := { s.video with src := "" }
           listenersActive := false
           cleanups := s.cleanups + 1 }

/-- Every settling path of `captureVideoFrame`. -/
def finishUrl (s : UrlSession) (r : Except CapErr String) : UrlSession :=
  let s1 := cleanupUrl { s with resolved := true }
  { s1 with outcome := some r }

/-- Environment events of a `captureVideoFrame` invocation.  There is no
reject on a still-not-ready retry (lines 234-242 silently do nothing),
so that path simply produces no settling event. -/
inductive UrlEv where
  | metaLoaded (d : ℚ) (rs : Nat)
  | canPlay (rs : Nat)
  | seekedReady (drawOk : Bool) (url : String)
  | seekedLateReady (url : String)
  | errored
  | timeout
  deriving DecidableEq, Repr

/-- One handler activation of `captureVideoFrame`: `onLoadedMetadata`
(lines 205-209) seeks unconditionally (no `resolved` or readiness
guard) to the clamped, un-nudged time; `onCanPlay` (lines 211-217)
seeks when `readyState ≥ 2`; `onSeeked` (lines 219-251) resolves or
rejects; `onError` and the 15s timeout reject. -/
def stepUrl (s : UrlSession) (e : UrlEv) : UrlSession :=
  match e with
  | .metaLoaded d rs =>
    { s with video :=
        { s.video with
            duration := some d
            readyState := rs
            currentTime := urlSeekTime s.seconds d } }
  | .canPlay rs =>
    let s1 := { s with video := { s.video with readyState := rs } }
    if 2 ≤ rs then
      { s1 with video := { s1.video with
          currentTime := urlSeekTime s.seconds (s1.video.duration.getD 0) } }
    else s1
  | .seekedReady drawOk url =>
    if s.resolved then s
    else if drawOk then finishUrl s (Except.ok url)
    else finishUrl s (Except.error CapErr.drawFailed)
  | .seekedLateReady url =>
    if s.resolved then s else finishUrl s (Except.ok url)
  | .errored =>
    if s.resolved then s else finishUrl s (Except.error CapErr.loadFailed)
  | .timeout =>
    if s.resolved then { s with timerArmed := false }
    else finishUrl { s with timerArmed := false } (Except.error CapErr.timedOut)

/-- A whole `captureVideoFrame` invocation. -/
def runUrl (videoUrl : String) (timeSeconds : ℚ) (evs : List UrlEv) : UrlSession :=
  evs.foldl stepUrl (initUrl videoUrl timeSeconds)

/-! Resource bookkeeping invariants of the two capture machines. -/

/-- While a `captureVideoFrameFromElement` invocation is pending, no
cleanup has run and the timer and listeners are live; once settled,
cleanup has run exactly once, the timer is cleared and the listeners
removed. -/
def CapTidy (s : CapSession) : Prop :=
  (s.resolved = false → s.cleanups = 0 ∧ s.outcome = none ∧
      s.timerArmed = true ∧ s.listenersActive = true) ∧
  (s.resolved = true → s.cleanups = 1 ∧ s.outcome.isSome = true ∧
      s.timerArmed = false ∧ s.listenersActive = false)

/-- The analogue for `captureVideoFrame`: its `cleanup` never clears the
timeout, so nothing can be said about `timerArmed` after settling. -/
def UrlTidy (s : UrlSession) : Prop :=
  (s.resolved = false → s.cleanups = 0 ∧ s.outcome = none ∧
      s.listenersActive = true) ∧
  (s.resolved = true → s.cleanups = 1 ∧ s.outcome.isSome = true ∧
      s.listenersActive = false)

lemma capTidy_init (v : SuppliedElem) (t : ℚ) : CapTidy (initCapture v t) := by
  refine ⟨fun _ => ⟨rfl, rfl, rfl, rfl⟩, fun h => ?_⟩
  simp [initCapture] at h

lemma capTidy_step (s : CapSession) (e : CapEv) (h : CapTidy s) :
    CapTidy (stepFromElem s e) := by
  obtain ⟨hf, ht⟩ := h
  by_cases hr : s.resolved = true
  · obtain ⟨h1, h2, h3, h4⟩ := ht hr
    cases e <;>
      simp_all [stepFromElem, CapTidy]
  · have hr0 : s.resolved = false := by simpa using hr
    obtain ⟨h1, h2, h3, h4⟩ := hf hr0
    cases e <;>
      simp_all [stepFromElem, CapTidy, finishFromElem, cleanupFromElem] <;>
      split_ifs <;>
      simp_all

lemma capTidy_foldl (evs : List CapEv) (s : CapSession) (h : CapTidy s) :
    CapTidy (evs.foldl stepFromElem s) := by
  induction evs generalizing s with
  | nil => exact h
  | cons e rest ih => exact ih (stepFromElem s e) (capTidy_step s e h)

lemma capTidy_run (v : SuppliedElem) (t : ℚ) (evs : List CapEv) :
    CapTidy (runFromElem v t evs) :=
  capTidy_foldl evs (initCapture v t) (capTidy_init v t)

lemma urlTidy_init (videoUrl : String) (t : ℚ) : UrlTidy (initUrl videoUrl t) := by
  refine ⟨fun _ => ⟨rfl, rfl, rfl⟩, fun h => ?_⟩
  simp [initUrl] at h

lemma urlTidy_step (s : UrlSession) (e : UrlEv) (h : UrlTidy s) :
    UrlTidy (stepUrl s e) := by
  obtain ⟨hf, ht⟩ := h
  by_cases hr : s.resolved = true
  · obtain ⟨h1, h2, h3⟩ := ht hr
    cases e <;>
      first
        | (simp_all [stepUrl, UrlTidy]; split_ifs <;> simp_all)
        | simp_all [stepUrl, UrlTidy]
  · have hr0 : s.resolved = false := by simpa using hr
    obtain ⟨h1, h2, h3⟩ := hf hr0
    cases e <;>
      simp_all [stepUrl, UrlTidy, finishUrl, cleanupUrl] <;>
      split_ifs <;>
      simp_all

lemma urlTidy_foldl (evs : List UrlEv) (s : UrlSession) (h : UrlTidy s) :
    UrlTidy (evs.foldl stepUrl s) := by
  induction evs generalizing s with
  | nil => exact h
  | cons e rest ih => exact ih (stepUrl s e) (urlTidy_step s e h)

lemma urlTidy_run (videoUrl : String) (t : ℚ) (evs : List UrlEv) :
    UrlTidy (runUrl videoUrl t evs) :=
  urlTidy_foldl evs (initUrl videoUrl t) (urlTidy_init videoUrl t)

/-- No handler of `captureVideoFrameFromElement` writes to the
caller-supplied element: every step leaves `supplied` untouched. -/
lemma stepFromElem_supplied (s : CapSession) (e : CapEv) :
    (stepFromElem s e).supplied = s.supplied := by
  cases e <;>
    simp only [stepFromElem, finishFromElem, cleanupFromElem] <;>
    split_ifs <;>
    rfl

lemma foldl_stepFromElem_supplied (evs : List CapEv) (s : CapSession) :
    (evs.foldl stepFromElem s).supplied = s.supplied := by
  induction evs generalizing s with
  | nil => rfl
  | cons e rest ih => rw [List.foldl_cons, ih, stepFromElem_supplied]

/-! Bounds of the clamped seek time. -/

lemma computeSeekTime_pos_lt (t d : ℚ) (hd : 1/10 < d) :
    0 < computeSeekTime t d ∧ computeSeekTime t d < d := by
  unfold computeSeekTime
  have hub : min (max 0 t) (d - 1/10) ≤ d - 1/10 := min_le_right _ _
  have hnn : 0 ≤ min (max 0 t) (d - 1/10) :=
    le_min (le_max_left 0 t) (by linarith)
  by_cases h0 : min (max 0 t) (d - 1/10) = 0
  · rw [if_pos ⟨h0, hd⟩]
    exact ⟨by norm_num, hd⟩
  · rw [if_neg (fun hc => h0 hc.1)]
    exact ⟨lt_of_le_of_ne hnn (Ne.symm h0), by linarith⟩

lemma computeSeekTime_of_le (t d : ℚ) (hd : d ≤ 1/10) :
    computeSeekTime t d = d - 1/10 := by
  unfold computeSeekTime
  have hmin : min (max 0 t) (d - 1/10) = d - 1/10 :=
    min_eq_right (le_trans (by linarith) (le_max_left 0 t))
  rw [hmin, if_neg]
  rintro ⟨h1, h2⟩
  linarith

/-- C4 counterexample: a `captureVideoFrame` invocation that settles via
the decoder's `error` event has completed (its outcome is settled and
`cleanup` ran once), yet its 15s timeout timer is still armed —
`cleanup` (lines 196-203) never calls `clearTimeout`, so the timer is
orphaned rather than cleared by the time the operation completes. -/
theorem captureVideoFrame_timer_orphan_counterexample :
    (runUrl "movie.mp4" 5 [UrlEv.errored]).outcome.isSome = true ∧
    (runUrl "movie.mp4" 5 [UrlEv.errored]).cleanups = 1 ∧
    (runUrl "movie.mp4" 5 [UrlEv.errored]).timerArmed = true := by
  exact ⟨rfl, rfl, rfl⟩

/-- C4 (amended): on every exit path of either capture operation the
listener subscriptions are released by exactly one `cleanup` run, and
no path runs `cleanup` twice; `captureVideoFrameFromElement`
additionally clears its timeout on completion, while `captureVideoFrame`
leaves its timeout timer armed (it only fires as a guarded no-op
later). -/
theorem capture_releases_resources_once (v : SuppliedElem) (t : ℚ) (evs : List CapEv)
    (videoUrl : String) (t2 : ℚ) (evs2 : List UrlEv) :
    ((runFromElem v t evs).outcome.isSome = true →
        (runFromElem v t evs).cleanups = 1 ∧
        (runFromElem v t evs).timerArmed = false ∧
        (runFromElem v t evs).listenersActive = false) ∧
    (runFromElem v t evs).cleanups ≤ 1 ∧
    ((runUrl videoUrl t2 evs2).outcome.isSome = true →
        (runUrl videoUrl t2 evs2).cleanups = 1 ∧
        (runUrl videoUrl t2 evs2).listenersActive = false) ∧
    (runUrl videoUrl t2 evs2).cleanups ≤ 1 := by
  obtain ⟨hf, ht⟩ := capTidy_run v t evs
  obtain ⟨hf2, ht2⟩ := urlTidy_run videoUrl t2 evs2
  have hres : (runFromElem v t evs).outcome.isSome = true →
      (runFromElem v t evs).resolved = true := by
    intro hs
    by_contra hc
    have h0 := hf (by simpa using hc)
    rw [h0.2.1] at hs
    simp at hs
  have hres2 : (runUrl videoUrl t2 evs2).outcome.isSome = true →
      (runUrl videoUrl t2 evs2).resolved = true := by
    intro hs
    by_contra hc
    have h0 := hf2 (by simpa using hc)
    rw [h0.2.1] at hs
    simp at hs
  refine ⟨fun hs => ?_, ?_, fun hs => ?_, ?_⟩
  · obtain ⟨h1, h2, h3, h4⟩ := ht (hres hs)
    exact ⟨h1, h3, h4⟩
  · by_cases hr : (runFromElem v t evs).resolved = true
    · have h0 := ht hr
      omega
    · have h0 := hf (by simpa using hr)
      omega
  · obtain ⟨h1, h2, h3⟩ := ht2 (hres2 hs)
    exact ⟨h1, h3⟩
  · by_cases hr : (runUrl videoUrl t2 evs2).resolved = true
    · have h0 := ht2 hr
      omega
    · have h0 := hf2 (by simpa using hr)
      omega

/-- A concrete live caller-supplied element: playing at position 7 of a
60s video, with two listeners registered on it. -/
def demoLive : SuppliedElem :=
  { src := "movie.mp4", currentSrc := "movie.mp4", duration := some 60,
    currentTime := 7, paused := false, listeners := 2 }

/-- A caller-supplied element whose duration is not yet known
(JS `videoElement.duration` is `NaN`, so `duration || 0` is `0`). -/
def demoNoDuration : SuppliedElem :=
  { src := "movie.mp4", currentSrc := "movie.mp4", duration := none,
    currentTime := 0, paused := true, listeners := 1 }

/-- C4 witness: the amended theorem applied to a `loadFailed` exit of
`captureVideoFrameFromElement` and a timeout exit of
`captureVideoFrame`: cleanup ran exactly once each and the former's
timer is cleared. -/
theorem capture_releases_resources_once_witness :
    (runFromElem demoLive 5 [CapEv.errored]).cleanups = 1 ∧
    (runFromElem demoLive 5 [CapEv.errored]).timerArmed = false ∧
    (runUrl "movie.mp4" 5 [UrlEv.timeout]).cleanups = 1 := by
  have h := capture_releases_resources_once demoLive 5 [CapEv.errored]
    "movie.mp4" 5 [UrlEv.timeout]
  exact ⟨(h.1 rfl).1, (h.1 rfl).2.1, (h.2.2.1 rfl).1⟩

/-- C6 counterexample: `captureVideoFrame` at requested time `0` against
a source of duration `10 > 0.1`: its `onLoadedMetadata` handler
(lines 205-209) has no zero nudge and requests a seek to exactly `0`,
not `0.1`. -/
theorem captureVideoFrame_seeks_exact_zero_counterexample :
    (1 : ℚ)/10 < 10 ∧
    (runUrl "movie.mp4" 0 [UrlEv.metaLoaded 10 1]).video.currentTime = 0 ∧
    urlSeekTime 0 10 = 0 := by
  refine ⟨by norm_num, ?_, ?_⟩ <;>
    simp only [runUrl, List.foldl, stepUrl, initUrl, urlSeekTime] <;>
    norm_num [min_def, max_def]

/-- C6 (amended): capturing at `t = 0` on a source with duration
`d > 0.1`, `captureVideoFrameFromElement` never requests a seek to
exactly `0` — its initial computation yields `0.1` and its
metadata-handler recomputation stays strictly positive; but
`captureVideoFrame`'s handlers apply the clamp without the nudge and do
request exactly `0`. -/
theorem capture_zero_nudged_fromElement_only (d : ℚ) (hd : 1/10 < d) :
    computeSeekTime 0 d = 1/10 ∧
    0 < computeSeekTime (computeSeekTime 0 d) d ∧
    urlSeekTime 0 d = 0 := by
  have h1 : computeSeekTime 0 d = 1/10 := by
    unfold computeSeekTime
    have hmin : min (max (0 : ℚ) 0) (d - 1/10) = 0 := by
      rw [max_self]
      exact min_eq_left (by linarith)
    rw [hmin, if_pos ⟨rfl, hd⟩]
  refine ⟨h1, ?_, ?_⟩
  · rw [h1]
    exact (computeSeekTime_pos_lt (1/10) d hd).1
  · unfold urlSeekTime
    rw [max_self]
    exact min_eq_left (by linarith)

/-- C6 witness: the amended theorem at `d = 10`. -/
theorem capture_zero_nudged_witness :
    computeSeekTime 0 10 = 1/10 ∧ urlSeekTime 0 10 = 0 := by
  have h := capture_zero_nudged_fromElement_only 10 (by norm_num)
  exact ⟨h.1, h.2.2⟩

/-- C7 counterexample: when the source's duration is unknown
(`videoElement.duration || 0` is `0`, as in `demoNoDuration`), the
computed seek time of `captureVideoFrameFromElement` at requested time
`5` is `min(max(0, 5), 0 - 0.1) = -0.1`: a negative seek, outside
`[0, duration - ε)`. -/
theorem computeSeekTime_negative_counterexample :
    (initCapture demoNoDuration 5).seekTime = computeSeekTime 5 0 ∧
    computeSeekTime 5 0 = -(1/10) ∧
    ¬ (0 ≤ computeSeekTime 5 0) := by
  refine ⟨rfl, ?_, ?_⟩ <;>
    simp only [computeSeekTime] <;>
    norm_num [min_def, max_def]

/-- C7 (amended): whenever the source's duration `d` exceeds `0.1`, the
computed seek time is strictly positive and strictly below `d` for
every requested time `t` (clamping plus the zero nudge); but when the
duration is unknown (treated as `0`) or at most `0.1`, the computed
value is `d - 0.1 ≤ 0` — it can be negative, so the unconditional claim
fails. -/
theorem computeSeekTime_bounds (t d : ℚ) :
    (1/10 < d → 0 < computeSeekTime t d ∧ computeSeekTime t d < d) ∧
    (d ≤ 1/10 → computeSeekTime t d = d - 1/10) :=
  ⟨fun hd => computeSeekTime_pos_lt t d hd, fun hd => computeSeekTime_of_le t d hd⟩

/-- C7 witness: the amended theorem at `t = 5`, `d = 10` and at
`t = 5`, `d = 0`. -/
theorem computeSeekTime_bounds_witness :
    (0 < computeSeekTime 5 10 ∧ computeSeekTime 5 10 < 10) ∧
    computeSeekTime 5 0 = 0 - 1/10 :=
  ⟨(computeSeekTime_bounds 5 10).1 (by norm_num),
   (computeSeekTime_bounds 5 0).2 (by norm_num)⟩

/-- C9 counterexample: `captureVideoFrameFromElement` on a live element
(at position `7`) requesting time `5`: the internal element created at
line 25 is loaded with the same URL and it — not the supplied element —
receives the seek on `loadedmetadata`: afterwards the internal element
sits at `5` while the supplied element still sits at `7`.  The claim
that the supplied element is seeked in place with no second decoder is
false. -/
theorem capture_not_inplace_counterexample :
    (initCapture demoLive 5).thumb.src = demoLive.src ∧
    (runFromElem demoLive 5 [CapEv.metaLoaded 60 2]).thumb.currentTime = 5 ∧
    (runFromElem demoLive 5 [CapEv.metaLoaded 60 2]).supplied.currentTime = 7 ∧
    (7 : ℚ) ≠ 5 := by
  refine ⟨rfl, ?_, rfl, by norm_num⟩
  simp only [runFromElem, List.foldl, stepFromElem, initCapture, jsOrStr, demoLive]
  norm_num [computeSeekTime, min_def, max_def]

/-- C9 (amended): `captureVideoFrameFromElement` creates a fresh
internal media element, copies the supplied element's URL
(`src || currentSrc`) onto it, and performs all seeking and decoding on
that fresh element starting from position `0`; the supplied element is
only read — its position and listener registrations are untouched on
every event sequence. -/
theorem capture_uses_internal_element (v : SuppliedElem) (t : ℚ) (evs : List CapEv) :
    (initCapture v t).thumb.src = jsOrStr v.src v.currentSrc ∧
    (initCapture v t).thumb.currentTime = 0 ∧
    (runFromElem v t evs).supplied.currentTime = v.currentTime ∧
    (runFromElem v t evs).supplied.listeners = v.listeners := by
  refine ⟨rfl, rfl, ?_, ?_⟩ <;>
    rw [runFromElem, foldl_stepFromElem_supplied] <;>
    rfl

/-- C10: a `captureVideoFrameFromElement` invocation leaves the
supplied element's whole state — `currentTime`, paused flag, `src`,
`currentSrc`, duration and registered listeners — unchanged on every
exit path: every handler works on the internal element only. -/
theorem capture_preserves_supplied_element (v : SuppliedElem) (t : ℚ) (evs : List CapEv) :
    (runFromElem v t evs).supplied = v ∧
    (runFromElem v t evs).supplied.currentTime = v.currentTime ∧
    (runFromElem v t evs).supplied.paused = v.paused ∧
    (runFromElem v t evs).supplied.src = v.src ∧
    (runFromElem v t evs).supplied.listeners = v.listeners := by
  have h : (runFromElem v t evs).supplied = v := by
    rw [runFromElem, foldl_stepFromElem_supplied]
    rfl
  exact ⟨h, by rw [h], by rw [h], by rw [h], by rw [h]⟩

end VueVimeoPlayer
